import Mathlib

/-!
Verification of the dmon metrics pipeline.

The definitions below are shallow embeddings of the JavaScript sources of the
dmon repository (a Docker container monitor): the server-side sampling and
caching layer (`container.js` / `server.js`), the SSE broadcast handler, and
the client-side history/backoff logic (`core.js`, `lifecycle.js`,
`charts.js`).  JavaScript numbers are modelled as `ℚ`, absent object fields as
`Option`, a thrown `TypeError` as `none` in an `Option`-valued result, and the
mutable module-level state as explicit state records.
-/

namespace Dmon

/-! ## Raw Docker samples (the shape returned by `container.stats`) -/

/-- The `cpu_usage` object of a Docker stats sample. -/
structure CpuUsage where
  total_usage : ℚ
deriving DecidableEq

/-- The `cpu_stats` object of a Docker stats sample. -/
structure CpuStatsObj where
  cpu_usage : CpuUsage
  system_cpu_usage : ℚ
deriving DecidableEq

/-- The `memory_stats` object of a Docker stats sample; both fields can be absent
(`usage = 0` and `limit = os.totalmem()` destructuring defaults apply). -/
structure MemoryStats where
  usage : Option ℚ
  limit : Option ℚ
deriving DecidableEq

/-- One raw cumulative usage sample for a container.  The `cpu_stats` and
`memory_stats` members may be absent from the duck-typed JSON object. -/
structure RawSample where
  cpu_stats : Option CpuStatsObj
  memory_stats : Option MemoryStats
deriving DecidableEq

/-! ## Delta CPU estimator -/

/-- Function `calculateCpuPercent` from `src/app/container.js` (same body in
`src/app/server.js`).  The JS guard is `if (!prev || !stats.cpu_stats) return 0;`
after which `prev.cpu_stats.cpu_usage.total_usage` is dereferenced
unconditionally: when `prev` is present but has no `cpu_stats`, that member
access throws a TypeError, modelled here as a `none` result.  The `|| 0`
fallbacks on the two `prev` fields are the identity on numbers present in the
sample shape (`0 || 0 === 0`), so they drop out of the embedding. -/
def calculateCpuPercent (stats : RawSample) (prev : Option RawSample) : Option ℚ :=
  match prev with
  | none => some 0
  | some p =>
    match stats.cpu_stats with
    | none => some 0
    | some cs =>
      match p.cpu_stats with
      | none => none
      | some ps =>
        let cpuDelta := cs.cpu_usage.total_usage - ps.cpu_usage.total_usage
        let sysDelta := cs.system_cpu_usage - ps.system_cpu_usage
        let percent := if 0 < sysDelta ∧ 0 < cpuDelta then cpuDelta / sysDelta * 100 else 0
        let percent := if percent < 0 then 0 else percent
        let percent := if 100 < percent then 100 else percent
        some percent

/-- Function `calculateCpuPercent` from `src/unnamed/part_007` (server.js v1.3.0).  The
optional chaining in `if (!prev?.cpu_stats || !stats?.cpu_stats) return 0;`
makes this variant total: either argument absent, or present without
`cpu_stats`, yields 0; otherwise
`sysDelta > 0 && cpuDelta > 0 ? Math.min(100, Math.max(0, cpuDelta/sysDelta*100)) : 0`. -/
def calculateCpuPercentV13 (stats prev : Option RawSample) : ℚ :=
  match prev.bind RawSample.cpu_stats, stats.bind RawSample.cpu_stats with
  | some ps, some cs =>
    let cpuDelta := cs.cpu_usage.total_usage - ps.cpu_usage.total_usage
    let sysDelta := cs.system_cpu_usage - ps.system_cpu_usage
    if 0 < sysDelta ∧ 0 < cpuDelta then min 100 (max 0 (cpuDelta / sysDelta * 100)) else 0
  | _, _ => 0

theorem calcV13_bounds (s q : Option RawSample) :
    0 ≤ calculateCpuPercentV13 s q ∧ calculateCpuPercentV13 s q ≤ 100 := by
  unfold calculateCpuPercentV13
  cases hq : q.bind RawSample.cpu_stats with
  | none => exact ⟨le_refl 0, by norm_num⟩
  | some ps =>
    cases hs : s.bind RawSample.cpu_stats with
    | none => exact ⟨le_refl 0, by norm_num⟩
    | some cs =>
      simp only
      split
      · exact ⟨le_min (by norm_num) (le_max_left _ _), min_le_left _ _⟩
      · exact ⟨le_refl 0, by norm_num⟩

theorem calcV13_eval (stats p : RawSample) (cs ps : CpuStatsObj)
    (hs : stats.cpu_stats = some cs) (hp : p.cpu_stats = some ps) :
    calculateCpuPercentV13 (some stats) (some p) =
      if 0 < cs.system_cpu_usage - ps.system_cpu_usage ∧
          0 < cs.cpu_usage.total_usage - ps.cpu_usage.total_usage then
        min 100 (max 0 ((cs.cpu_usage.total_usage - ps.cpu_usage.total_usage) /
          (cs.system_cpu_usage - ps.system_cpu_usage) * 100))
      else 0 := by
  have e1 : Option.bind (some p) RawSample.cpu_stats = some ps := hp
  have e2 : Option.bind (some stats) RawSample.cpu_stats = some cs := hs
  unfold calculateCpuPercentV13
  rw [e1, e2]

/-- Claim C1: with no previous sample the estimate is exactly 0; with
`sysDelta ≤ 0` or `cpuDelta ≤ 0` it is exactly 0; with both deltas positive it
equals `min(100, max(0, cpuDelta/sysDelta × 100))`; it always lies in
`[0, 100]`; and the `container.js`/`server.js` variant computes the same value
(wrapped in `some`) on such well-shaped sample pairs. -/
theorem C1_cpu_estimate (stats p : RawSample) (cs ps : CpuStatsObj)
    (hs : stats.cpu_stats = some cs) (hp : p.cpu_stats = some ps) :
    calculateCpuPercentV13 (some stats) none = 0
    ∧ ((cs.system_cpu_usage - ps.system_cpu_usage ≤ 0 ∨
        cs.cpu_usage.total_usage - ps.cpu_usage.total_usage ≤ 0) →
        calculateCpuPercentV13 (some stats) (some p) = 0)
    ∧ (0 < cs.system_cpu_usage - ps.system_cpu_usage →
       0 < cs.cpu_usage.total_usage - ps.cpu_usage.total_usage →
        calculateCpuPercentV13 (some stats) (some p) =
          min 100 (max 0 ((cs.cpu_usage.total_usage - ps.cpu_usage.total_usage) /
            (cs.system_cpu_usage - ps.system_cpu_usage) * 100)))
    ∧ 0 ≤ calculateCpuPercentV13 (some stats) (some p)
    ∧ calculateCpuPercentV13 (some stats) (some p) ≤ 100
    ∧ calculateCpuPercent stats (some p) =
        some (calculateCpuPercentV13 (some stats) (some p)) := by
  have hev := calcV13_eval stats p cs ps hs hp
  refine ⟨rfl, ?_, ?_, (calcV13_bounds _ _).1, (calcV13_bounds _ _).2, ?_⟩
  · intro h
    rw [hev, if_neg]
    rintro ⟨h1, h2⟩
    rcases h with h | h
    · exact absurd h1 (not_lt.mpr h)
    · exact absurd h2 (not_lt.mpr h)
  · intro h1 h2
    rw [hev, if_pos ⟨h1, h2⟩]
  · rw [hev]
    simp only [calculateCpuPercent, hs, hp]
    by_cases hg : 0 < cs.system_cpu_usage - ps.system_cpu_usage ∧
        0 < cs.cpu_usage.total_usage - ps.cpu_usage.total_usage
    · rw [if_pos hg, if_pos hg]
      set d := (cs.cpu_usage.total_usage - ps.cpu_usage.total_usage) /
        (cs.system_cpu_usage - ps.system_cpu_usage) * 100 with hd
      have hdpos : 0 < d := by
        apply mul_pos _ (by norm_num : (0:ℚ) < 100)
        exact div_pos hg.2 hg.1
      rw [if_neg (not_lt.mpr hdpos.le)]
      rw [max_eq_right hdpos.le]
      by_cases hc : 100 < d
      · rw [if_pos hc, min_eq_left hc.le]
      · rw [if_neg hc, min_eq_right (not_lt.mp hc)]
    · rw [if_neg hg, if_neg hg]
      norm_num

/-- Witness for C1, at the spec's own example: previous totals (1000, 10000),
current totals (1500, 15000) give an estimate of exactly 10 %. -/
theorem C1_cpu_estimate_witness :
    calculateCpuPercentV13 (some (RawSample.mk (some ⟨⟨1500⟩, 15000⟩) none))
        (some (RawSample.mk (some ⟨⟨1000⟩, 10000⟩) none)) = 10 := by
  have h := C1_cpu_estimate (RawSample.mk (some ⟨⟨1500⟩, 15000⟩) none)
      (RawSample.mk (some ⟨⟨1000⟩, 10000⟩) none) ⟨⟨1500⟩, 15000⟩ ⟨⟨1000⟩, 10000⟩ rfl rfl
  rw [h.2.2.1 (by norm_num) (by norm_num)]
  norm_num

/-- Claim C10 counterexample: in the `container.js`/`server.js` variant, a
previous sample that is present but lacks `cpu_stats` makes
`prev.cpu_stats.cpu_usage.total_usage` throw a TypeError (`none` here), so
`calculateCpuPercent` is not total. -/
theorem C10_counterexample :
    calculateCpuPercent (RawSample.mk (some ⟨⟨2000⟩, 20000⟩) none)
      (some (RawSample.mk none none)) = none := rfl

/-- Claim C10 (amended): the part_007 variant is total and returns 0 whenever
either sample lacks the `cpu_stats` shape; the `container.js`/`server.js`
variant returns a number when the previous sample is absent or the current
sample lacks `cpu_stats`, but throws exactly when the previous sample is
present without `cpu_stats` while the current one has it. -/
theorem C10_totality (s p : RawSample) :
    calculateCpuPercentV13 none (some p) = 0
    ∧ calculateCpuPercentV13 (some s) none = 0
    ∧ (s.cpu_stats = none → calculateCpuPercentV13 (some s) (some p) = 0)
    ∧ (p.cpu_stats = none → calculateCpuPercentV13 (some s) (some p) = 0)
    ∧ calculateCpuPercent s none = some 0
    ∧ (calculateCpuPercent s (some p) = none ↔
        p.cpu_stats = none ∧ ∃ cs, s.cpu_stats = some cs) := by
  refine ⟨?_, rfl, ?_, ?_, rfl, ?_⟩
  · cases hp : p.cpu_stats <;> simp [calculateCpuPercentV13, hp]
  · intro h
    cases hp : p.cpu_stats <;> simp [calculateCpuPercentV13, h, hp]
  · intro h
    unfold calculateCpuPercentV13
    have e1 : Option.bind (some p) RawSample.cpu_stats = none := h
    rw [e1]
  · cases hs : s.cpu_stats with
    | none => simp [calculateCpuPercent, hs]
    | some cs =>
      cases hp : p.cpu_stats with
      | none => simp [calculateCpuPercent, hs, hp]
      | some ps => simp [calculateCpuPercent, hs, hp]

/-- Witness for C10 (amended): both lack-of-shape hypotheses discharged at a
concrete sample without `cpu_stats`. -/
theorem C10_totality_witness :
    calculateCpuPercentV13 (some (RawSample.mk none none))
      (some (RawSample.mk none none)) = 0 :=
  (C10_totality (RawSample.mk none none) (RawSample.mk none none)).2.2.1 rfl

/-! ## Snapshot cache (`getDockerStatsCached`) -/

/-- The module-level cache state `lastStats` / `lastStatsTime` of
`container.js` / `server.js`. -/
structure StatsCache (α : Type) where
  lastStats : Option α
  lastStatsTime : ℤ
deriving DecidableEq

/-- Source: `const CACHE_TTL = 2000` (2 s cache for Docker stats). -/
def CACHE_TTL : ℤ := 2000

/-- Function `getDockerStatsCached`:
`if (lastStats && now - lastStatsTime < 2000) return lastStats;
lastStats = await getDockerStats(); lastStatsTime = now; return lastStats;`
(part_007 phrases the same logic as
`if (!lastStats || now - lastStatsTime >= CACHE_TTL) { ... }`).
`fresh` stands for the value `await getDockerStats()` would produce; the
returned `Bool` records whether that platform fetch ran. -/
def getDockerStatsCached {α : Type} (st : StatsCache α) (now : ℤ) (fresh : α) :
    α × StatsCache α × Bool :=
  match st.lastStats with
  | some s =>
    if now - st.lastStatsTime < CACHE_TTL then (s, st, false)
    else (fresh, ⟨some fresh, now⟩, true)
  | none => (fresh, ⟨some fresh, now⟩, true)

/-- Claim C2: inside the TTL window a call returns the identical cached
snapshot, leaves the cache untouched and performs no platform fetch; with no
cached value or an elapsed TTL it performs the single fresh fetch, stores the
result with the new timestamp, and returns it. -/
theorem C2_snapshot_cache {α : Type} (st : StatsCache α) (now : ℤ) (fresh : α) :
    (∀ s, st.lastStats = some s → now - st.lastStatsTime < 2000 →
        getDockerStatsCached st now fresh = (s, st, false))
    ∧ ((st.lastStats = none ∨ 2000 ≤ now - st.lastStatsTime) →
        getDockerStatsCached st now fresh = (fresh, ⟨some fresh, now⟩, true)) := by
  constructor
  · intro s hs hlt
    simp [getDockerStatsCached, hs, CACHE_TTL, hlt]
  · intro h
    cases hs : st.lastStats with
    | none => simp [getDockerStatsCached, hs]
    | some s =>
      rcases h with h | h
      · exact absurd hs (h ▸ by simp)
      · simp [getDockerStatsCached, hs, CACHE_TTL, not_lt.mpr h]

/-- Witness for C2: a cache filled at t = 100 and queried at t = 1500 (within
the 2000 ms TTL) hands back the cached value without fetching. -/
theorem C2_snapshot_cache_witness :
    getDockerStatsCached (StatsCache.mk (some 7) 100) 1500 (9 : ℕ) =
      (7, StatsCache.mk (some 7) 100, false) :=
  (C2_snapshot_cache (StatsCache.mk (some 7) 100) 1500 9).1 7 rfl (by decide)

/-! ## Client reconnection backoff (`connectSSE` in `lifecycle.js`) -/

/-- The client's reconnection state: `sseReconnectDelay` (initially 1000) and
whether `sseReconnectTimer` is non-null, i.e. a reconnect is scheduled. -/
structure SSEState where
  sseReconnectDelay : ℕ
  timerPending : Bool
deriving DecidableEq

/-- Source: `let sseReconnectDelay = 1000, sseReconnectTimer = null` (core.js). -/
def initSSE : SSEState := ⟨1000, false⟩

/-- Observable events of the connection: a delivered message
(`eventSource.onmessage`), a stream error (`eventSource.onerror`), and the
firing of a scheduled reconnect timer (the `setTimeout` callback). -/
inductive SSEEvent where
  | message
  | error
  | fire
deriving DecidableEq

/-- One step of the handlers installed by `connectSSE`:
on message `sseReconnectDelay = 1000; clearTimeout(sseReconnectTimer)`;
on error, if no timer is pending, schedule one (the delay used is read at
scheduling time); when the timer fires, `connectSSE(); sseReconnectTimer =
null; sseReconnectDelay = Math.min(30000, sseReconnectDelay * 2)`. -/
def sseStep : SSEState → SSEEvent → SSEState
  | _, .message => ⟨1000, false⟩
  | st, .error => if st.timerPending then st else ⟨st.sseReconnectDelay, true⟩
  | st, .fire =>
      if st.timerPending then ⟨min 30000 (st.sseReconnectDelay * 2), false⟩ else st

/-- The delay passed to `setTimeout` when the error handler schedules a
reconnect (none when nothing gets scheduled by the event). -/
def sseScheduled (st : SSEState) : SSEEvent → Option ℕ
  | .error => if st.timerPending then none else some st.sseReconnectDelay
  | _ => none

/-- Run a sequence of events. -/
def sseRun (st : SSEState) : List SSEEvent → SSEState
  | [] => st
  | e :: es => sseRun (sseStep st e) es

/-- The reconnect delays scheduled along a sequence of events. -/
def sseDelays (st : SSEState) : List SSEEvent → List ℕ
  | [] => []
  | e :: es => (sseScheduled st e).toList ++ sseDelays (sseStep st e) es

theorem sseStep_delay_le (st : SSEState) (e : SSEEvent)
    (h : st.sseReconnectDelay ≤ 30000) :
    (sseStep st e).sseReconnectDelay ≤ 30000 := by
  cases e with
  | message => simp [sseStep]
  | error =>
    simp only [sseStep]
    split
    · exact h
    · exact h
  | fire =>
    simp only [sseStep]
    split
    · exact min_le_left _ _
    · exact h

theorem sseRun_delays_le (es : List SSEEvent) :
    ∀ st : SSEState, st.sseReconnectDelay ≤ 30000 →
      (sseRun st es).sseReconnectDelay ≤ 30000 ∧
        ∀ d ∈ sseDelays st es, d ≤ 30000 := by
  induction es with
  | nil => intro st h; exact ⟨h, by simp [sseDelays]⟩
  | cons e es ih =>
    intro st h
    have hstep := sseStep_delay_le st e h
    refine ⟨(ih _ hstep).1, ?_⟩
    intro d hd
    simp only [sseDelays, List.mem_append] at hd
    rcases hd with hd | hd
    · cases e with
      | message => simp [sseScheduled] at hd
      | fire => simp [sseScheduled] at hd
      | error =>
        by_cases ht : st.timerPending
        · simp [sseScheduled, ht] at hd
        · simp [sseScheduled, ht] at hd
          subst hd
          exact h
    · exact (ih _ hstep).2 d hd

/-- Claim C3: starting from a fresh connection, three consecutive stream
errors (each after the previously scheduled reconnect fired and failed)
schedule reconnects after 1000 ms, 2000 ms and 4000 ms; every delay ever held
or scheduled stays at most 30000 ms; and a single successful message resets
the delay to the 1000 ms floor and cancels any pending reconnect timer. -/
theorem C3_backoff :
    sseDelays initSSE [.error, .fire, .error, .fire, .error] = [1000, 2000, 4000]
    ∧ (∀ es : List SSEEvent, (sseRun initSSE es).sseReconnectDelay ≤ 30000
        ∧ ∀ d ∈ sseDelays initSSE es, d ≤ 30000)
    ∧ (∀ st : SSEState, sseStep st .message = ⟨1000, false⟩)
    ∧ (∀ st : SSEState, sseScheduled (sseStep st .message) .error = some 1000) := by
  refine ⟨by decide, ?_, fun st => rfl, fun st => rfl⟩
  intro es
  exact sseRun_delays_le es initSSE (by decide)

/-- Witness for C3: the single delay scheduled by an error on a fresh
connection is a member of the delay trace and obeys the 30000 ms cap. -/
theorem C3_backoff_witness :
    1000 ∈ sseDelays initSSE [SSEEvent.error] ∧ (1000 : ℕ) ≤ 30000 :=
  ⟨by decide, (C3_backoff.2.1 [SSEEvent.error]).2 1000 (by decide)⟩

/-! ## Broadcast stream handler (`app.get('/stream', ...)`) -/

/-- The observable side effects performed by the body of the `/stream`
handler at connection-open time, in program order. -/
inductive StreamAction where
  | writeRetry (ms : ℕ)
  | sendData
  | setIntervalSend (ms : ℕ)
deriving DecidableEq

/-- Handler body in `src/app/server.js` (v1.0.0):
`res.write("retry: 10000\n"); sendData(); const interval = setInterval(sendData, 1000);`. -/
def streamSetup : List StreamAction :=
  [.writeRetry 10000, .sendData, .setIntervalSend 1000]

/-- Handler body in `src/unnamed/part_007` (server.js v1.3.0) — identical
except `setInterval(sendData, 2000)` (and `src/unnamed/part_006`, v1.2.0,
also uses 2000). -/
def streamSetupV13 : List StreamAction :=
  [.writeRetry 10000, .sendData, .setIntervalSend 2000]

/-- The period of the first repeating push timer the handler registers. -/
def intervalOf (setup : List StreamAction) : Option ℕ :=
  setup.findSome? fun a =>
    match a with
    | .setIntervalSend ms => some ms
    | _ => none

/-- Does the handler push one snapshot before registering the repeating
timer (i.e. without waiting for the first tick)? -/
def sendsBeforeInterval : List StreamAction → Bool
  | [] => false
  | .sendData :: _ => true
  | .setIntervalSend _ :: _ => false
  | .writeRetry _ :: rest => sendsBeforeInterval rest

/-- Time (ms after the connection opens) of the k-th snapshot push on a
connection: push 0 is the immediate `sendData()` at time 0, push k ≥ 1 is the
k-th firing of the interval timer. -/
def pushTime (setup : List StreamAction) (k : ℕ) : Option ℕ :=
  if sendsBeforeInterval setup then (intervalOf setup).map (· * k) else none

/-- Claim C4 counterexample: the `/stream` handler of `src/app/server.js`
registers a 1000 ms interval, not the claimed fixed 2000 ms one. -/
theorem C4_counterexample :
    intervalOf streamSetup = some 1000 ∧ intervalOf streamSetup ≠ some 2000 := by
  decide

/-- Claim C4 (amended): in both handler versions one snapshot is pushed
immediately on connection open without waiting for the first tick, and the
k-th subsequent push happens after k fixed periods — 2000 ms in
`src/unnamed/part_007` (v1.3.0), but 1000 ms in `src/app/server.js` (v1.0.0). -/
theorem C4_push_schedule (k : ℕ) :
    sendsBeforeInterval streamSetupV13 = true
    ∧ pushTime streamSetupV13 0 = some 0
    ∧ pushTime streamSetupV13 k = some (2000 * k)
    ∧ sendsBeforeInterval streamSetup = true
    ∧ pushTime streamSetup k = some (1000 * k) :=
  ⟨rfl, rfl, rfl, rfl, rfl⟩

/-! ## Client history buffer (`charts.js`) -/

/-- Source: `const MAX_DATA_POINTS = 60` (core.js). -/
def MAX_DATA_POINTS : ℕ := 60

/-- Source: `Math.min(100, Math.max(0, value || 0))` — `|| 0` is the identity on
numeric values, so only the clamp remains. -/
def clampVal (v : ℚ) : ℚ := min 100 (max 0 v)

/-- The series mutation performed by `updateChart`:
`arr.push(Math.min(100, Math.max(0, value || 0)));
if (arr.length > MAX_DATA_POINTS) arr.shift();`. -/
def updateChartSeries (arr : List ℚ) (value : ℚ) : List ℚ :=
  let arr1 := arr ++ [clampVal value]
  if MAX_DATA_POINTS < arr1.length then arr1.tail else arr1

/-- Repeated `updateChart` observations on one series. -/
def observeAll (arr : List ℚ) (values : List ℚ) : List ℚ :=
  values.foldl updateChartSeries arr

/-- The suffix of the last `n` entries of a list. -/
def lastN (n : ℕ) (l : List ℚ) : List ℚ := l.drop (l.length - n)

theorem lastN_of_le (n : ℕ) (l : List ℚ) (h : l.length ≤ n) : lastN n l = l := by
  unfold lastN
  rw [Nat.sub_eq_zero_of_le h, List.drop_zero]

theorem lastN_cons (n : ℕ) (a : ℚ) (l : List ℚ) (h : n ≤ l.length) :
    lastN n (a :: l) = lastN n l := by
  unfold lastN
  rw [List.length_cons, Nat.succ_sub h, List.drop_succ_cons]

theorem observeAll_eq (values : List ℚ) :
    ∀ arr : List ℚ, arr.length ≤ 60 →
      observeAll arr values = lastN 60 (arr ++ values.map clampVal) := by
  induction values with
  | nil =>
    intro arr h
    simp only [observeAll, List.foldl_nil, List.map_nil, List.append_nil]
    exact (lastN_of_le 60 arr h).symm
  | cons v vs ih =>
    intro arr h
    have hstep : observeAll arr (v :: vs) = observeAll (updateChartSeries arr v) vs := rfl
    rcases Nat.lt_or_ge arr.length 60 with hlt | hge
    · have hne : ¬ MAX_DATA_POINTS < (arr ++ [clampVal v]).length := by
        simp only [List.length_append, List.length_singleton, MAX_DATA_POINTS]
        omega
      have hupd : updateChartSeries arr v = arr ++ [clampVal v] := by
        simp only [updateChartSeries, if_neg hne]
      rw [hstep, hupd, ih _ (by simp; omega)]
      simp only [List.map_cons]
      rw [List.append_assoc]
      rfl
    · have heq : arr.length = 60 := le_antisymm h hge
      cases arr with
      | nil => simp at heq
      | cons a t =>
        have htlen : t.length = 59 := by simpa using heq
        have hgt : MAX_DATA_POINTS < (a :: (t ++ [clampVal v])).length := by
          simp only [List.length_cons, List.length_append,
            List.length_singleton, MAX_DATA_POINTS]
          omega
        have hupd : updateChartSeries (a :: t) v = t ++ [clampVal v] := by
          simp only [updateChartSeries, List.cons_append]
          rw [if_pos hgt]
          rfl
        rw [hstep, hupd, ih _ (by simp [htlen])]
        have hlhs : (t ++ [clampVal v]) ++ vs.map clampVal
            = t ++ (clampVal v :: vs.map clampVal) := by
          rw [List.append_assoc]; rfl
        have hrhs : (a :: t) ++ (v :: vs).map clampVal
            = a :: (t ++ (clampVal v :: vs.map clampVal)) := by
          simp [List.map_cons]
        rw [hlhs, hrhs, lastN_cons]
        simp only [List.length_append, List.length_cons, List.length_map, htlen]
        omega

/-- Claim C5: appending 61 values to a fresh (empty) series through
`updateChart` yields a series of length exactly 60, equal to the last 60
appended values, each clamped, in their append order; in particular every
retained value lies in [0, 100]. -/
theorem C5_history_buffer (values : List ℚ) (h : values.length = 61) :
    (observeAll [] values).length = 60
    ∧ observeAll [] values = (values.map clampVal).drop 1
    ∧ ∀ x ∈ observeAll [] values, 0 ≤ x ∧ x ≤ 100 := by
  have hbase := observeAll_eq values [] (by simp)
  simp only [List.nil_append] at hbase
  have hlen : (values.map clampVal).length = 61 := by simp [h]
  have hdrop : observeAll [] values = (values.map clampVal).drop 1 := by
    rw [hbase]; unfold lastN; rw [hlen]
  refine ⟨?_, hdrop, ?_⟩
  · rw [hdrop, List.length_drop, hlen]
  · intro x hx
    rw [hdrop] at hx
    have hx' := List.mem_of_mem_drop hx
    rcases List.mem_map.mp hx' with ⟨v, -, hv⟩
    rw [← hv]
    exact ⟨le_min (by norm_num) (le_max_left _ _), min_le_left _ _⟩

/-- Witness for C5 at 61 copies of the out-of-range value 150: the buffer
keeps exactly 60 entries, all clamped into [0, 100]. -/
theorem C5_history_buffer_witness :
    (List.replicate 61 (150 : ℚ)).length = 61
    ∧ ((observeAll [] (List.replicate 61 (150 : ℚ))).length = 60
      ∧ observeAll [] (List.replicate 61 (150 : ℚ))
          = ((List.replicate 61 (150 : ℚ)).map clampVal).drop 1
      ∧ ∀ x ∈ observeAll [] (List.replicate 61 (150 : ℚ)), 0 ≤ x ∧ x ≤ 100) :=
  ⟨by simp, C5_history_buffer _ (by simp)⟩

/-! ## Chart / history cleanup (`cleanUpCharts` in `charts.js`) -/

/-- The list of characters before the first `'-'`: `k.split('-')[0]`. -/
def splitFirstDash : List Char → List Char
  | [] => []
  | c :: cs => if c = '-' then [] else c :: splitFirstDash cs

/-- Source: `k.split('-')[0]` on a chart DOM id (container ids are dash-free hex
strings, host chart ids start with `host-`). -/
def keyId (k : String) : String := String.mk (splitFirstDash k.data)

/-- The client chart state: `Object.keys(charts)` (DOM ids with a live
ECharts instance) and `historyData` (entity key ↦ cpu/ram series). -/
structure ChartsState where
  charts : List String
  historyData : List (String × (List ℚ × List ℚ))
deriving DecidableEq

/-- The entity ids whose charts the cleanup loop disposes:
`id !== 'host' && !activeIds.has(id)`. -/
def removedIds (charts : List String) (activeIds : List String) : List String :=
  charts.filterMap fun k =>
    if keyId k = "host" ∨ keyId k ∈ activeIds then none else some (keyId k)

/-- Function `cleanUpCharts(activeIds)`: for every key of `charts`, when its id prefix
is neither `'host'` nor active, `charts[k].dispose(); delete charts[k];
delete historyData[id]`. -/
def cleanUpCharts (activeIds : List String) (st : ChartsState) : ChartsState :=
  { charts := st.charts.filter fun k => decide (keyId k = "host" ∨ keyId k ∈ activeIds),
    historyData :=
      st.historyData.filter fun p => decide (p.1 ∉ removedIds st.charts activeIds) }

theorem cleanUpCharts_charts_mem (activeIds : List String) (st : ChartsState)
    (k : String) :
    k ∈ (cleanUpCharts activeIds st).charts ↔
      k ∈ st.charts ∧ (keyId k = "host" ∨ keyId k ∈ activeIds) := by
  simp [cleanUpCharts, List.mem_filter]

theorem cleanUpCharts_history_mem (activeIds : List String) (st : ChartsState)
    (p : String × (List ℚ × List ℚ)) :
    p ∈ (cleanUpCharts activeIds st).historyData ↔
      p ∈ st.historyData ∧ p.1 ∉ removedIds st.charts activeIds := by
  simp [cleanUpCharts, List.mem_filter]

theorem mem_removedIds (charts activeIds : List String) (x : String) :
    x ∈ removedIds charts activeIds ↔
      ∃ k ∈ charts, keyId k = x ∧ x ≠ "host" ∧ x ∉ activeIds := by
  unfold removedIds
  rw [List.mem_filterMap]
  constructor
  · rintro ⟨k, hk, hsome⟩
    by_cases hc : keyId k = "host" ∨ keyId k ∈ activeIds
    · rw [if_pos hc] at hsome
      exact absurd hsome (by simp)
    · rw [if_neg hc] at hsome
      have hx : keyId k = x := Option.some.inj hsome
      push_neg at hc
      exact ⟨k, hk, hx, hx ▸ hc.1, hx ▸ hc.2⟩
  · rintro ⟨k, hk, hx, hh, ha⟩
    refine ⟨k, hk, ?_⟩
    have hc : ¬ (keyId k = "host" ∨ keyId k ∈ activeIds) := by
      rw [hx]; push_neg; exact ⟨hh, ha⟩
    rw [if_neg hc, hx]

theorem cleanUpCharts_history_dropped (activeIds : List String) (st : ChartsState)
    (hwf : ∀ p ∈ st.historyData, p.1 = "host" ∨ ∃ k ∈ st.charts, keyId k = p.1) :
    ∀ p ∈ (cleanUpCharts activeIds st).historyData, p.1 = "host" ∨ p.1 ∈ activeIds := by
  intro p hp
  rcases (cleanUpCharts_history_mem activeIds st p).mp hp with ⟨hmem, hnot⟩
  by_contra hcon
  push_neg at hcon
  rcases hwf p hmem with hh | ⟨k, hk, hkid⟩
  · exact hcon.1 hh
  · exact hnot ((mem_removedIds st.charts activeIds p.1).mpr
      ⟨k, hk, hkid, hcon.1, hcon.2⟩)

/-- Claim C6: cleanup drops every chart whose entity id is neither the host
nor active; keeps host/active charts; a retained history entry is always for
the host or an active id (given the tracking invariant that every non-host
series has a backing chart, as established by `updateChart`/`initChart`);
host and active history entries survive; and cleanup with the empty active
set leaves only host series behind. -/
theorem C6_cleanup (activeIds : List String) (st : ChartsState)
    (hwf : ∀ p ∈ st.historyData, p.1 = "host" ∨ ∃ k ∈ st.charts, keyId k = p.1) :
    (∀ k ∈ (cleanUpCharts activeIds st).charts, keyId k = "host" ∨ keyId k ∈ activeIds)
    ∧ (∀ k ∈ st.charts, (keyId k = "host" ∨ keyId k ∈ activeIds) →
        k ∈ (cleanUpCharts activeIds st).charts)
    ∧ (∀ p ∈ (cleanUpCharts activeIds st).historyData, p.1 = "host" ∨ p.1 ∈ activeIds)
    ∧ (∀ p ∈ st.historyData, (p.1 = "host" ∨ p.1 ∈ activeIds) →
        p ∈ (cleanUpCharts activeIds st).historyData)
    ∧ (∀ p ∈ (cleanUpCharts [] st).historyData, p.1 = "host") := by
  refine ⟨?_, ?_, cleanUpCharts_history_dropped activeIds st hwf, ?_, ?_⟩
  · intro k hk
    exact ((cleanUpCharts_charts_mem activeIds st k).mp hk).2
  · intro k hk hcond
    exact (cleanUpCharts_charts_mem activeIds st k).mpr ⟨hk, hcond⟩
  · intro p hp hcond
    refine (cleanUpCharts_history_mem activeIds st p).mpr ⟨hp, ?_⟩
    intro hrm
    rcases (mem_removedIds st.charts activeIds p.1).mp hrm with ⟨-, -, -, hh, ha⟩
    rcases hcond with hcond | hcond
    · exact hh hcond
    · exact ha hcond
  · intro p hp
    rcases cleanUpCharts_history_dropped [] st hwf p hp with hh | ha
    · exact hh
    · exact absurd ha (by simp)

/-- A small client state for the C6 witness: one container chart (entity
`abc`) plus one host chart, with their histories. -/
def sampleChartsState : ChartsState :=
  ⟨["abc-cpu", "host-cpu-chart"], [("abc", ([5], [6])), ("host", ([7], [8]))]⟩

/-- Witness for C6: on the sample state, cleanup with no active ids keeps the
host series (the only survivor is a host entry). -/
theorem C6_cleanup_witness :
    ("host", (([7] : List ℚ), ([8] : List ℚ))) ∈ sampleChartsState.historyData
    ∧ ∀ p ∈ (cleanUpCharts [] sampleChartsState).historyData, p.1 = "host" :=
  ⟨by decide, (C6_cleanup [] sampleChartsState (by decide)).2.2.2.2⟩

/-! ## Series creation / pre-seeding (`initChart` in `charts.js`) -/

/-- The seeding step of `initChart` on the history series:
`if (!arr.length && typeof initialValue === 'number') {
  const v = Math.min(100, Math.max(0, initialValue));
  for (let i = 0; i < 10; i++) arr.push(v); }`. -/
def initChartSeries (arr : List ℚ) (initialValue : Option ℚ) : List ℚ :=
  if arr.isEmpty then
    match initialValue with
    | some v => List.replicate 10 (clampVal v)
    | none => arr
  else arr

/-- The complete effect of one `updateChart` call on its series: the push and
eviction run first, and only afterwards is
`charts[chartId] || initChart(chartId, color, value)` evaluated, so
`initChart`'s seeding sees the already non-empty array.  `chartExists` is
whether `charts[chartId]` is already set. -/
def updateChartFull (arr : List ℚ) (chartExists : Bool) (value : ℚ) : List ℚ :=
  let arr1 := updateChartSeries arr value
  if chartExists then arr1 else initChartSeries arr1 (some value)

/-- Claim C9 counterexample: a fresh series observed through `updateChart`
(the path every observation takes) ends up holding the single clamped value,
not the value repeated as `initChart`'s 10-copy pre-seed would produce. -/
theorem C9_counterexample :
    updateChartFull [] false 50 = [50]
    ∧ updateChartFull [] false 50 ≠ List.replicate 10 (clampVal 50) := by
  constructor
  · show updateChartSeries [] 50 = [50]
    norm_num [updateChartSeries, clampVal, MAX_DATA_POINTS]
  · intro h
    have hlen := congrArg List.length h
    rw [List.length_replicate] at hlen
    have : updateChartFull [] false 50 = [50] := by
      show updateChartSeries [] 50 = [50]
      norm_num [updateChartSeries, clampVal, MAX_DATA_POINTS]
    rw [this] at hlen
    simp at hlen

/-- Claim C9 (amended): only the explicit `initChart` path pre-seeds — called
on an empty series with a numeric initial value it installs 10 copies of the
clamped value, and it never touches a non-empty series; a series created
through `updateChart` holds exactly the single clamped first observation.  On
every creation path the series is non-empty after its first observation. -/
theorem C9_seeding (v x : ℚ) (arr : List ℚ) (b : Bool) :
    initChartSeries [] (some v) = List.replicate 10 (clampVal v)
    ∧ initChartSeries [] none = []
    ∧ initChartSeries (x :: arr) (some v) = x :: arr
    ∧ updateChartFull [] b v = [clampVal v]
    ∧ updateChartFull [] b v ≠ [] := by
  have hupd : updateChartSeries [] v = [clampVal v] := by
    simp [updateChartSeries, MAX_DATA_POINTS]
  refine ⟨rfl, rfl, rfl, ?_, ?_⟩
  · cases b with
    | false =>
      show initChartSeries (updateChartSeries [] v) (some v) = [clampVal v]
      rw [hupd]
      rfl
    | true => exact hupd
  · cases b with
    | false =>
      show initChartSeries (updateChartSeries [] v) (some v) ≠ []
      rw [hupd]
      simp [initChartSeries]
    | true =>
      show updateChartSeries [] v ≠ []
      rw [hupd]
      simp

/-! ## Per-container sampling and the retained-sample cache (`cpuStats`) -/

/-- JS `(x | 0)`: ToInt32 truncation toward zero (the MiB values here never
reach the int32 wrap-around). -/
def jsTrunc (q : ℚ) : ℤ := Int.tdiv q.num (q.den : ℤ)

/-- The value part returned by `getContainerStats`. -/
structure ContainerStats where
  cpu : ℚ
  ramUsage : ℤ
  ramLimit : ℤ
deriving DecidableEq

/-- Source: `{ cpu: 0, ramUsage: 0, ramLimit: 0 }`. -/
def zeroStats : ContainerStats := ⟨0, 0, 0⟩

/-- The process-wide `cpuStats` object: the retained previous raw sample per
container id. -/
abbrev CpuCache := List (String × RawSample)

/-- Source: `cpuStats[id]` (property lookup). -/
def cacheLookup : CpuCache → String → Option RawSample
  | [], _ => none
  | p :: m, id => if p.1 = id then some p.2 else cacheLookup m id

/-- Source: `delete cpuStats[id]`. -/
def cacheErase : CpuCache → String → CpuCache
  | [], _ => []
  | p :: m, id => if p.1 = id then cacheErase m id else p :: cacheErase m id

/-- Source: `cpuStats[id] = stats` (property assignment). -/
def cacheInsert (m : CpuCache) (id : String) (s : RawSample) : CpuCache :=
  (id, s) :: cacheErase m id

theorem cacheLookup_erase_self (m : CpuCache) (id : String) :
    cacheLookup (cacheErase m id) id = none := by
  induction m with
  | nil => rfl
  | cons p m ih =>
    by_cases h : p.1 = id
    · simpa [cacheErase, h] using ih
    · simpa [cacheErase, cacheLookup, h] using ih

theorem cacheLookup_erase_ne (m : CpuCache) (id j : String) (hj : j ≠ id) :
    cacheLookup (cacheErase m id) j = cacheLookup m j := by
  have hij : ¬ id = j := fun hc => hj hc.symm
  induction m with
  | nil => rfl
  | cons p m ih =>
    by_cases h : p.1 = id
    · simp [cacheErase, cacheLookup, h, hij, ih]
    · by_cases hpj : p.1 = j
      · simp [cacheErase, cacheLookup, h, hpj, hj]
      · simp [cacheErase, cacheLookup, h, hpj, ih]

theorem cacheLookup_insert_self (m : CpuCache) (id : String) (s : RawSample) :
    cacheLookup (cacheInsert m id s) id = some s := by
  simp [cacheInsert, cacheLookup]

theorem cacheLookup_insert_ne (m : CpuCache) (id j : String) (s : RawSample)
    (hj : j ≠ id) :
    cacheLookup (cacheInsert m id s) j = cacheLookup m j := by
  have hne : ¬ id = j := fun hc => hj hc.symm
  simp only [cacheInsert, cacheLookup, hne, if_false]
  exact cacheLookup_erase_ne m id j hj

/-- Function `getContainerStats` (part_007): fetch the live sample, estimate CPU
against the retained previous sample, retain the new sample, and convert the
memory numbers (`const { usage = 0, limit = os.totalmem() } =
stats.memory_stats || {}`); on a stats-fetch failure, return zeros and delete
the retained sample.  `container.js` / v1.0.0 `server.js` share the same
try/catch structure (they use `Math.round` instead of `| 0`).  `fetched` is
the outcome of `await docker.getContainer(id).stats({ stream: false })`. -/
def getContainerStats (cache : CpuCache) (id : String)
    (fetched : Except String RawSample) (totalmem : ℚ) :
    ContainerStats × CpuCache :=
  match fetched with
  | .ok stats =>
    let cpu := calculateCpuPercentV13 (some stats) (cacheLookup cache id)
    let usage := (stats.memory_stats.bind MemoryStats.usage).getD 0
    let limit := (stats.memory_stats.bind MemoryStats.limit).getD totalmem
    (⟨cpu, jsTrunc (usage / 1048576), jsTrunc (limit / 1048576)⟩,
      cacheInsert cache id stats)
  | .error _ => (zeroStats, cacheErase cache id)

/-- Source: `s.toLowerCase()` as a character list. -/
def lowerData (s : String) : List Char := s.data.map Char.toLower

/-- Source: `haystack.includes(pat)` — substring containment. -/
def containsSub (pat : List Char) : List Char → Bool
  | [] => pat.isEmpty
  | c :: cs => pat.isPrefixOf (c :: cs) || containsSub pat cs

/-- One element of the `docker.listContainers({ all: true })` result. -/
structure ContainerInfo where
  Id : String
  Names : List String
  Image : String
  Status : String
  State : String
deriving DecidableEq

/-- Source: `State === 'running' || Status.toLowerCase().includes('up')`. -/
def isRunningInfo (c : ContainerInfo) : Bool :=
  c.State == "running" || containsSub "up".data (lowerData c.Status)

/-- One element of the snapshot's `containers` array. -/
structure ContainerEntry where
  id : String
  name : String
  image : String
  status : String
  cpu : ℚ
  ramUsage : ℤ
  ramLimit : ℤ
deriving DecidableEq

/-- Source: `Names[0].slice(1)` — strips the leading `'/'`. -/
def containerName (names : List String) : String :=
  String.mk ((names.headD "").data.drop 1)

/-- Source: `{ id: Id, name, image: Image, status: Status, ...stats }`. -/
def mkEntry (c : ContainerInfo) (s : ContainerStats) : ContainerEntry :=
  ⟨c.Id, containerName c.Names, c.Image, c.Status, s.cpu, s.ramUsage, s.ramLimit⟩

/-- The per-container body of the `containers.map` in `getDockerStats`:
`isRunning ? await getContainerStats(Id) : (delete cpuStats[Id], zeros)`. -/
def containerStep (fetch : String → Except String RawSample) (tm : ℚ)
    (cache : CpuCache) (c : ContainerInfo) : ContainerStats × CpuCache :=
  if isRunningInfo c then getContainerStats cache c.Id (fetch c.Id) tm
  else (zeroStats, cacheErase cache c.Id)

/-- Function `getDockerStats` (part_007) applied to an already-listed container list.
The `Promise.all` map is modelled as the left-to-right sequence (the Node
event loop is single-threaded; each container's read-modify-write of the one
shared `cpuStats` runs without interleaving).  `fetch` gives each container
id's stats-call outcome. -/
def getDockerStats (fetch : String → Except String RawSample) (tm : ℚ) :
    CpuCache → List ContainerInfo → List ContainerEntry × CpuCache
  | cache, [] => ([], cache)
  | cache, c :: rest =>
    (mkEntry c (containerStep fetch tm cache c).1 ::
        (getDockerStats fetch tm (containerStep fetch tm cache c).2 rest).1,
      (getDockerStats fetch tm (containerStep fetch tm cache c).2 rest).2)

theorem getContainerStats_fst_congr (cache1 cache2 : CpuCache) (id : String)
    (fet : Except String RawSample) (tm : ℚ)
    (h : cacheLookup cache1 id = cacheLookup cache2 id) :
    (getContainerStats cache1 id fet tm).1 = (getContainerStats cache2 id fet tm).1 := by
  cases fet <;> simp [getContainerStats, h]

theorem getContainerStats_lookup_ne (cache : CpuCache) (id j : String)
    (fet : Except String RawSample) (tm : ℚ) (hj : j ≠ id) :
    cacheLookup (getContainerStats cache id fet tm).2 j = cacheLookup cache j := by
  cases fet with
  | ok stats => exact cacheLookup_insert_ne cache id j stats hj
  | error e => exact cacheLookup_erase_ne cache id j hj

theorem getContainerStats_lookup_self (cache1 cache2 : CpuCache) (id : String)
    (fet : Except String RawSample) (tm : ℚ) :
    cacheLookup (getContainerStats cache1 id fet tm).2 id
      = cacheLookup (getContainerStats cache2 id fet tm).2 id := by
  cases fet with
  | ok stats =>
    rw [show (getContainerStats cache1 id (.ok stats) tm).2 = cacheInsert cache1 id stats from rfl,
      show (getContainerStats cache2 id (.ok stats) tm).2 = cacheInsert cache2 id stats from rfl,
      cacheLookup_insert_self, cacheLookup_insert_self]
  | error e =>
    rw [show (getContainerStats cache1 id (.error e) tm).2 = cacheErase cache1 id from rfl,
      show (getContainerStats cache2 id (.error e) tm).2 = cacheErase cache2 id from rfl,
      cacheLookup_erase_self, cacheLookup_erase_self]

theorem containerStep_lookup_ne (fetch : String → Except String RawSample)
    (tm : ℚ) (cache : CpuCache) (c : ContainerInfo) (j : String) (hj : j ≠ c.Id) :
    cacheLookup (containerStep fetch tm cache c).2 j = cacheLookup cache j := by
  unfold containerStep
  split
  · exact getContainerStats_lookup_ne cache c.Id j (fetch c.Id) tm hj
  · exact cacheLookup_erase_ne cache c.Id j hj

theorem containerStep_frame (f g : String → Except String RawSample) (tm : ℚ)
    (cache1 cache2 : CpuCache) (c : ContainerInfo)
    (hf : f c.Id = g c.Id)
    (hc : cacheLookup cache1 c.Id = cacheLookup cache2 c.Id) :
    (containerStep f tm cache1 c).1 = (containerStep g tm cache2 c).1
    ∧ cacheLookup (containerStep f tm cache1 c).2 c.Id
        = cacheLookup (containerStep g tm cache2 c).2 c.Id := by
  unfold containerStep
  rw [hf]
  split
  · exact ⟨getContainerStats_fst_congr cache1 cache2 c.Id (g c.Id) tm hc,
      getContainerStats_lookup_self cache1 cache2 c.Id (g c.Id) tm⟩
  · exact ⟨rfl, by rw [cacheLookup_erase_self, cacheLookup_erase_self]⟩

theorem getDockerStats_error_entry (fetch : String → Except String RawSample)
    (tm : ℚ) (msg : String) :
    ∀ (l : List ContainerInfo) (cache : CpuCache) (k : ℕ) (c : ContainerInfo),
      l.get? k = some c → isRunningInfo c = true → fetch c.Id = .error msg →
      ((getDockerStats fetch tm cache l).1).get? k = some (mkEntry c zeroStats) := by
  intro l
  induction l with
  | nil => intro cache k c hk; simp at hk
  | cons c0 rest ih =>
    intro cache k c hk hrun herr
    cases k with
    | zero =>
      have hc : c = c0 := by simpa using hk.symm
      subst hc
      simp only [getDockerStats, List.get?]
      have hstep : (containerStep fetch tm cache c).1 = zeroStats := by
        unfold containerStep
        rw [if_pos hrun, herr]
        rfl
      rw [hstep]
    | succ k =>
      simp only [getDockerStats, List.get?]
      exact ih _ k c (by simpa using hk) hrun herr

theorem getDockerStats_frame (f g : String → Except String RawSample)
    (tm : ℚ) (i : String) (hfg : ∀ j, j ≠ i → f j = g j) :
    ∀ (l : List ContainerInfo) (cache1 cache2 : CpuCache),
      (∀ j, j ≠ i → cacheLookup cache1 j = cacheLookup cache2 j) →
      (∀ j, j ≠ i → cacheLookup (getDockerStats f tm cache1 l).2 j
          = cacheLookup (getDockerStats g tm cache2 l).2 j)
      ∧ ∀ (k : ℕ) (c : ContainerInfo), l.get? k = some c → c.Id ≠ i →
          ((getDockerStats f tm cache1 l).1).get? k
            = ((getDockerStats g tm cache2 l).1).get? k := by
  intro l
  induction l with
  | nil =>
    intro cache1 cache2 hc
    exact ⟨hc, fun k c hk => by simp at hk⟩
  | cons c0 rest ih =>
    intro cache1 cache2 hc
    have hnext : ∀ j, j ≠ i →
        cacheLookup (containerStep f tm cache1 c0).2 j
          = cacheLookup (containerStep g tm cache2 c0).2 j := by
      intro j hj
      by_cases hjc : j = c0.Id
      · subst hjc
        exact (containerStep_frame f g tm cache1 cache2 c0 (hfg _ hj) (hc _ hj)).2
      · rw [containerStep_lookup_ne f tm cache1 c0 j hjc,
          containerStep_lookup_ne g tm cache2 c0 j hjc]
        exact hc j hj
    have hrest := ih (containerStep f tm cache1 c0).2 (containerStep g tm cache2 c0).2 hnext
    constructor
    · intro j hj
      simpa only [getDockerStats] using hrest.1 j hj
    · intro k c hk hci
      cases k with
      | zero =>
        have hcc : c = c0 := by simpa using hk.symm
        subst hcc
        have hval : (containerStep f tm cache1 c).1 = (containerStep g tm cache2 c).1 :=
          (containerStep_frame f g tm cache1 cache2 c (hfg _ hci) (hc _ hci)).1
        simp only [getDockerStats, List.get?, hval]
      | succ k =>
        simp only [getDockerStats, List.get?]
        exact hrest.2 k c (by simpa using hk) hci

/-- Claim C7: when a container's live-stats fetch fails, `getContainerStats`
does not throw — it returns the zero-valued stats and deletes only that
container's retained previous sample; inside `getDockerStats` the failing
container still appears at its position in the snapshot with
`cpu = ramUsage = ramLimit = 0`; and flipping one container's fetch outcome
(e.g. to a failure) leaves every other container's snapshot entry unchanged. -/
theorem C7_entity_failure_isolated (cache : CpuCache) (id msg : String) (tm : ℚ) :
    getContainerStats cache id (.error msg) tm = (zeroStats, cacheErase cache id)
    ∧ cacheLookup (cacheErase cache id) id = none
    ∧ (∀ j, j ≠ id → cacheLookup (cacheErase cache id) j = cacheLookup cache j)
    ∧ (∀ (fetch : String → Except String RawSample) (l : List ContainerInfo)
        (k : ℕ) (c : ContainerInfo),
        l.get? k = some c → isRunningInfo c = true → fetch c.Id = .error msg →
        ((getDockerStats fetch tm cache l).1).get? k = some (mkEntry c zeroStats))
    ∧ (∀ (f g : String → Except String RawSample), (∀ j, j ≠ id → f j = g j) →
        ∀ (l : List ContainerInfo) (cache2 : CpuCache),
        (∀ j, j ≠ id → cacheLookup cache j = cacheLookup cache2 j) →
        ∀ (k : ℕ) (c : ContainerInfo), l.get? k = some c → c.Id ≠ id →
          ((getDockerStats f tm cache l).1).get? k
            = ((getDockerStats g tm cache2 l).1).get? k) := by
  refine ⟨rfl, cacheLookup_erase_self cache id, ?_, ?_, ?_⟩
  · intro j hj
    exact cacheLookup_erase_ne cache id j hj
  · intro fetch l k c hk hrun herr
    exact getDockerStats_error_entry fetch tm msg l cache k c hk hrun herr
  · intro f g hfg l cache2 hc k c hk hci
    exact (getDockerStats_frame f g tm id hfg l cache cache2 hc).2 k c hk hci

/-- A concrete running container for the C7 witness. -/
def sampleInfo : ContainerInfo := ⟨"c1", ["/web"], "img", "Up 2 days", "running"⟩

/-- Witness for C7: with an empty cache and a fetch that fails for every id,
the single running container still shows up in the snapshot with all-zero
metrics. -/
theorem C7_entity_failure_isolated_witness :
    ((getDockerStats (fun _ => .error "boom") 0 [] [sampleInfo]).1).get? 0
      = some (mkEntry sampleInfo zeroStats) :=
  (C7_entity_failure_isolated [] "c1" "boom" 0).2.2.2.1 (fun _ => .error "boom")
    [sampleInfo] 0 sampleInfo rfl (by decide) rfl

/-! ## Connection teardown (`req.on('close', ...)` in the `/stream` handler) -/

/-- The server's module-level mutable state plus the set of live
per-connection interval timers (one handle per open `/stream` connection). -/
structure ServerState where
  cpuStats : CpuCache
  lastStats : Option (List ContainerEntry)
  lastStatsTime : ℤ
  intervals : List ℕ
deriving DecidableEq

/-- Source: `req.on('close', () => { clearInterval(interval);
Object.keys(cpuStats).forEach(k => delete cpuStats[k]); res.end(); })` —
stops this connection's timer and empties the process-wide `cpuStats`. -/
def onStreamClose (st : ServerState) (conn : ℕ) : ServerState :=
  { st with intervals := st.intervals.erase conn, cpuStats := [] }

/-- Claim C8: tearing down one connection stops exactly that connection's
repeating timer, deletes every retained per-entity raw sample (the cache map
becomes empty), and leaves the last-snapshot cache (`lastStats` /
`lastStatsTime`) and every other connection's timer untouched. -/
theorem C8_teardown (st : ServerState) (conn : ℕ) (hnd : st.intervals.Nodup) :
    (onStreamClose st conn).cpuStats = []
    ∧ (∀ id, cacheLookup (onStreamClose st conn).cpuStats id = none)
    ∧ (onStreamClose st conn).lastStats = st.lastStats
    ∧ (onStreamClose st conn).lastStatsTime = st.lastStatsTime
    ∧ conn ∉ (onStreamClose st conn).intervals
    ∧ (∀ c, c ≠ conn → (c ∈ (onStreamClose st conn).intervals ↔ c ∈ st.intervals)) := by
  refine ⟨rfl, fun id => rfl, rfl, rfl, ?_, ?_⟩
  · intro hmem
    exact ((List.Nodup.mem_erase_iff hnd).mp hmem).1 rfl
  · intro c hcne
    exact List.mem_erase_of_ne hcne

/-- Witness for C8: closing connection 1 of two live connections removes
timer 1 and keeps timer 2. -/
theorem C8_teardown_witness :
    ([1, 2] : List ℕ).Nodup
    ∧ 1 ∉ (onStreamClose ⟨[("x", ⟨none, none⟩)], some [], 5, [1, 2]⟩ 1).intervals :=
  ⟨by decide,
    (C8_teardown ⟨[("x", ⟨none, none⟩)], some [], 5, [1, 2]⟩ 1 (by decide)).2.2.2.2.1⟩

end Dmon
